import Mathlib

/-!
# Verification of the limiter-study rate-limiting core

Shallow embedding of `src/storage.py`: a library of rate-limiting
algorithms (Token Bucket, Leaky Bucket, Fixed Window Counter, Sliding
Window Log, Sliding Window Counter) together with the middleware
wrappers that turn a store decision into an HTTP-style response.

## Time model

Wallclock `datetime` values are modelled as rational numbers of seconds
since the Unix epoch, in UTC.  `datetime.min` (0001-01-01 00:00:00) then
sits at `-62135596800` seconds (`719162` days before the epoch), so
`datetime.timestamp()` and `datetime.fromtimestamp` are identities of
this representation.  `timedelta` values are rational numbers of
seconds.  Python's `%` on `timedelta` is floored modulo (sign of the
divisor), written `pymod` below.  `time.monotonic()` values are
likewise rationals.

Python floats and ints are modelled exactly by `ℚ` and `ℤ`; the store
dictionaries are modelled per identifier: each operation reads and
writes the state of a single key, so a store operation takes the state
attached to one identifier (`Option` of the entry, `none` when the key
is absent, i.e. the `KeyError` branch) and returns the entry written
back.  The wrapped handler is modelled by the body string it would
produce; a wrapper that does not consult that string has not invoked
the handler.
-/

/-- Seconds from the Unix epoch back to `datetime.min` (0001-01-01). -/
def datetimeMin : ℚ := -62135596800

/-- Python's floored modulo on rationals (`x % y` with the sign of `y`),
as performed by `timedelta.__mod__`. -/
def pymod (x y : ℚ) : ℚ := x - y * (⌊x / y⌋ : ℤ)

/-- `floor_dt(dt, delta) = dt - (dt - datetime.min) % delta` from
`storage.py`. -/
def floor_dt (dt delta : ℚ) : ℚ := dt - pymod (dt - datetimeMin) delta

/-- `now.second` of a wallclock instant: whole seconds into the current
minute (the epoch is minute-aligned in UTC). -/
def dtSecond (t : ℚ) : ℤ := ⌊t⌋ % 60

/-- Python `int(float(x))`: truncation toward zero of a rational. -/
def pytrunc (x : ℚ) : ℤ := Int.tdiv x.num (x.den : ℤ)

/-- The `RequestRate` dataclass: `requests: int`, `period: timedelta`. -/
structure RequestRate where
  requests : ℤ
  period : ℚ
deriving DecidableEq, Repr

/-- `RequestRate.per_second = requests / period.total_seconds()`. -/
def RequestRate.per_second (r : RequestRate) : ℚ := r.requests / r.period

/-- Construction of a `RequestRate`.  The dataclass-generated
`__init__` stores both fields unconditionally and can never reject an
input; `Option` is the shape a rejecting constructor would have, and
this one always returns `some`. -/
def RequestRate.construct (requests : ℤ) (period : ℚ) : Option RequestRate :=
  some ⟨requests, period⟩

/-- A Flask-style `Response`: body, status code and the rate-limit
headers (all header values produced by `storage.py` are numeric or
timestamps, hence `ℚ`). -/
structure Response where
  body : String
  status : ℕ
  headers : List (String × ℚ)
deriving DecidableEq, Repr

/-! ## Token Bucket (`LocalTokenBucket`)

Per-identifier state: `buckets[key] = [current_tokens, last_refill]`,
modelled as `ℚ × ℚ`. -/

/-- `LocalTokenBucket.refill`: lazy refill at request time; returns the
entry written back (the Python method always writes one). -/
def LocalTokenBucket.refill (refill_rate : RequestRate) (token_capacity : ℚ)
    (now : ℚ) (e : Option (ℚ × ℚ)) : ℚ × ℚ :=
  match e with
  | some (current_tokens, last_refill) =>
    if now < last_refill then (current_tokens, last_refill)
    else
      (min token_capacity
        (current_tokens + refill_rate.per_second * (now - last_refill)), now)
  | none => (token_capacity, now)

/-- `LocalTokenBucket.consume`: try to deduct `token_cost`; returns the
`(allow, tokens, last_refill)` triple and the entry written back. -/
def LocalTokenBucket.consume (token_cost : ℚ) (e : ℚ × ℚ) :
    (Bool × ℚ × ℚ) × (ℚ × ℚ) :=
  if e.1 < token_cost then ((false, e.1, e.2), e)
  else ((true, e.1 - token_cost, e.2), (e.1 - token_cost, e.2))

/-- `LocalTokenBucket.__call__` wrapper body: refill, consume, build the
headers, then either run the handler (status 200) or reject with 429. -/
def LocalTokenBucket.call (key : String) (refill_rate : RequestRate)
    (token_capacity token_cost : ℚ) (now : ℚ) (handler : String)
    (e : Option (ℚ × ℚ)) : Response × (ℚ × ℚ) :=
  let e1 := LocalTokenBucket.refill refill_rate token_capacity now e
  let r := LocalTokenBucket.consume token_cost e1
  let rate_headers := [("api-ratelimit-limit", refill_rate.per_second),
                       ("api-ratelimit-remaining", r.1.2.1 / token_cost)]
  if r.1.1 then (⟨handler, 200, rate_headers⟩, r.2)
  else (⟨"Rate Limit for " ++ key ++ " exceeded.", 429, rate_headers⟩, r.2)

/-- One full token-bucket request: `refill` followed by `consume`, as
the wrapper performs them. -/
def tbRequest (refill_rate : RequestRate) (token_capacity token_cost now : ℚ)
    (e : Option (ℚ × ℚ)) : (Bool × ℚ × ℚ) × (ℚ × ℚ) :=
  LocalTokenBucket.consume token_cost
    (LocalTokenBucket.refill refill_rate token_capacity now e)

/-- `k` back-to-back token-bucket requests at one instant, collecting
the `allow` bits and the final entry. -/
def tbRun (refill_rate : RequestRate) (token_capacity token_cost now : ℚ) :
    ℕ → ℚ × ℚ → List Bool × (ℚ × ℚ)
  | 0, e => ([], e)
  | k + 1, e =>
    let r := tbRequest refill_rate token_capacity token_cost now (some e)
    let rest := tbRun refill_rate token_capacity token_cost now k r.2
    (r.1.1 :: rest.1, rest.2)

/-! ## Leaky Bucket (`LocalLeakyBucket`)

Per-identifier state: `buckets[key] = [current_tokens, last_leak]`. -/

/-- `LocalLeakyBucket.leak`: lazy drain at request time. -/
def LocalLeakyBucket.leak (leak_rate : RequestRate) (now : ℚ)
    (e : Option (ℚ × ℚ)) : ℚ × ℚ :=
  match e with
  | some (current_tokens, last_leak) =>
    if now < last_leak then (current_tokens, last_leak)
    else (max 0 (current_tokens - leak_rate.per_second * (now - last_leak)), now)
  | none => (0, now)

/-- `LocalLeakyBucket.pour`: admit iff the poured cost fits under the
capacity. -/
def LocalLeakyBucket.pour (token_capacity token_cost : ℚ) (e : ℚ × ℚ) :
    (Bool × ℚ × ℚ) × (ℚ × ℚ) :=
  if e.1 + token_cost > token_capacity then ((false, e.1, e.2), e)
  else ((true, e.1 + token_cost, e.2), (e.1 + token_cost, e.2))

/-- `LocalLeakyBucket.__call__` wrapper body. -/
def LocalLeakyBucket.call (key : String) (leak_rate : RequestRate)
    (token_capacity token_cost : ℚ) (now : ℚ) (handler : String)
    (e : Option (ℚ × ℚ)) : Response × (ℚ × ℚ) :=
  let e1 := LocalLeakyBucket.leak leak_rate now e
  let r := LocalLeakyBucket.pour token_capacity token_cost e1
  let rate_headers := [("api-ratelimit-limit", leak_rate.per_second),
                       ("api-ratelimit-remaining", (token_capacity - r.1.2.1) / token_cost)]
  if r.1.1 then (⟨handler, 200, rate_headers⟩, r.2)
  else (⟨"Rate Limit for " ++ key ++ " exceeded.", 429, rate_headers⟩, r.2)

/-! ## Sliding Window Log (`LocalSlidingLog`)

Per-identifier state: `logs[key]`, a list of wallclock timestamps. -/

/-- `LocalSlidingLog.consume`.  The Python body appends `now` to the
stored list (in place, so the store keeps it), then rebinds the local
name `log` to the filtered list; only that local copy is pruned — the
store keeps the unpruned `log ++ [now]`.  The decision and the reported
`remaining`/reset use the pruned local copy (`log[-1]` is its last
element, defaulting here like Python would only on a nonempty list,
which holds whenever the period is positive). -/
def LocalSlidingLog.consume (rate : RequestRate) (now : ℚ)
    (log? : Option (List ℚ)) : (Bool × ℤ × ℚ) × List ℚ :=
  let lower_bound := now - rate.period
  match log? with
  | some log =>
    let stored := log ++ [now]
    let pruned := stored.filter (fun ts => lower_bound < ts)
    let size : ℤ := pruned.length
    if size > rate.requests then
      ((false, rate.requests - size, pruned.getLastD 0 + rate.period), stored)
    else
      ((true, rate.requests - size, pruned.getLastD 0 + rate.period), stored)
  | none => ((true, rate.requests - 1, now + rate.period), [now])

/-- `LocalSlidingLog.__call__` wrapper body. -/
def LocalSlidingLog.call (key : String) (rate : RequestRate) (now : ℚ)
    (handler : String) (log? : Option (List ℚ)) : Response × List ℚ :=
  let r := LocalSlidingLog.consume rate now log?
  let rate_headers := [("api-ratelimit-limit", rate.per_second),
                       ("api-ratelimit-remaining", (r.1.2.1 : ℚ)),
                       ("api-ratelimit-reset", r.1.2.2)]
  if r.1.1 then (⟨handler, 200, rate_headers⟩, r.2)
  else (⟨"Rate Limit for " ++ key ++ " exceeded.", 429, rate_headers⟩, r.2)

/-! ## Fixed Window Counter (`LocalFixedWindowCounter`)

Per-identifier state: `counter[key] = [count, active_window]`. -/

/-- Per-identifier state of a fixed window counter. -/
structure FWEntry where
  count : ℤ
  window : ℚ
deriving DecidableEq, Repr

/-- `LocalFixedWindowCounter.consume`, acting on the entry of one
identifier.  Returns the `(allow, remaining, reset)` triple and the
entry written back. -/
def LocalFixedWindowCounter.consume (rate : RequestRate) (now : ℚ)
    (e : Option FWEntry) : (Bool × ℤ × ℚ) × FWEntry :=
  let latest_window := floor_dt now rate.period
  match e with
  | some en =>
    if en.window < latest_window then
      ((true, rate.requests, latest_window + rate.period), ⟨0, latest_window⟩)
    else if en.count + 1 < rate.requests then
      ((true, rate.requests - en.count - 1, en.window + rate.period),
        ⟨en.count + 1, en.window⟩)
    else
      ((false, 0, en.window + rate.period), en)
  | none =>
    ((true, rate.requests, latest_window + rate.period), ⟨0, latest_window⟩)

/-- `LocalFixedWindowCounter.__call__` wrapper body. -/
def LocalFixedWindowCounter.call (key : String) (rate : RequestRate) (now : ℚ)
    (handler : String) (e : Option FWEntry) : Response × FWEntry :=
  let r := LocalFixedWindowCounter.consume rate now e
  let rate_headers := [("api-ratelimit-limit", rate.per_second),
                       ("api-ratelimit-remaining", (r.1.2.1 : ℚ)),
                       ("api-ratelimit-reset", r.1.2.2)]
  if r.1.1 then (⟨handler, 200, rate_headers⟩, r.2)
  else (⟨"Rate Limit for " ++ key ++ " exceeded.", 429, rate_headers⟩, r.2)

/-- Run a sequence of `consume` calls at the given times against one
identifier's fixed-window entry, collecting the `allow` bits. -/
def runFW (rate : RequestRate) (ts : List ℚ) (e : Option FWEntry) : List Bool :=
  match ts with
  | [] => []
  | t :: rest =>
    let r := LocalFixedWindowCounter.consume rate t e
    r.1.1 :: runFW rate rest (some r.2)

/-! ## Remote Fixed Window Counter (`RedisFixedWindowCounter`)

The shared hash stores, per identifier, the string
`"<count>##<window_start_epoch_seconds>"`.  It is modelled by the pair
of the parsed `int` count and the exact rational timestamp written;
`datetime.fromtimestamp(int(float(ts)))` is `pytrunc` on that rational
(timestamps are identities in the UTC model). -/

/-- `RedisFixedWindowCounter.consume`: hash-field read / parse /
decision / write-back, on the field of one identifier. -/
def RedisFixedWindowCounter.consume (rate : RequestRate) (now : ℚ)
    (field? : Option (ℤ × ℚ)) : (Bool × ℤ × ℚ) × (ℤ × ℚ) :=
  let latest_window := floor_dt now rate.period
  match field? with
  | some (count, ts) =>
    let active_window : ℚ := (pytrunc ts : ℤ)
    if active_window < latest_window then
      ((true, rate.requests, latest_window + rate.period), (0, latest_window))
    else if count + 1 < rate.requests then
      ((true, rate.requests - count - 1, active_window + rate.period),
        (count + 1, latest_window))
    else
      ((false, 0, active_window + rate.period), (count, ts))
  | none =>
    ((true, rate.requests, latest_window + rate.period), (0, latest_window))

/-- `RedisFixedWindowCounter.__call__` wrapper body. -/
def RedisFixedWindowCounter.call (key : String) (rate : RequestRate) (now : ℚ)
    (handler : String) (field? : Option (ℤ × ℚ)) : Response × (ℤ × ℚ) :=
  let r := RedisFixedWindowCounter.consume rate now field?
  let rate_headers := [("api-ratelimit-limit", rate.per_second),
                       ("api-ratelimit-remaining", (r.1.2.1 : ℚ)),
                       ("api-ratelimit-reset", r.1.2.2)]
  if r.1.1 then (⟨handler, 200, rate_headers⟩, r.2)
  else (⟨"Rate Limit for " ++ key ++ " exceeded.", 429, rate_headers⟩, r.2)

/-- Correspondence between a local fixed-window entry and the remote
hash field: same count, the field's timestamp is exactly the window
start, and that window start is a whole number of seconds (as every
window start written by either store is, for whole-second periods). -/
def fwCorresponds (en : FWEntry) (field : ℤ × ℚ) : Prop :=
  field.1 = en.count ∧ field.2 = en.window ∧ ∃ z : ℤ, en.window = (z : ℚ)

/-- Correspondence lifted to possibly-absent state. -/
def fwCorrespondsOpt : Option FWEntry → Option (ℤ × ℚ) → Prop
  | none, none => True
  | some en, some field => fwCorresponds en field
  | _, _ => False

/-! ## Sliding Window Counter (`LocalSlidingWindowCounter`)

Per-identifier state: `counters[key]`, a `defaultdict` from 1-second
sub-window start to count, modelled as an insertion-ordered association
list (Python dicts preserve insertion order). -/

/-- The elapsed-window fraction the code actually uses:
`now.second / 60`. -/
def swcFraction (now : ℚ) : ℚ := (dtSecond now : ℚ) / 60

/-- Modelled from the spec: the spec (§4.7) requires `f` to be the
elapsed fraction of the configured period `D`, namely
`(now − floor(now, D)) / D`; no implementation of this formula exists
in `src/storage.py`, whose `consume` hard-codes `now.second / 60`. -/
def specElapsedFraction (rate : RequestRate) (now : ℚ) : ℚ :=
  (now - floor_dt now rate.period) / rate.period

/-- Sub-windows surviving the prune: keys strictly newer than
`now - rate.period`. -/
def swcPrune (rate : RequestRate) (now : ℚ) (windows : List (ℚ × ℤ)) :
    List (ℚ × ℤ) :=
  windows.filter (fun kv => now - rate.period < kv.1)

/-- Sum of pruned sub-window counts strictly before the current major
window. -/
def swcPriorSum (rate : RequestRate) (now : ℚ) (windows : List (ℚ × ℤ)) : ℤ :=
  (((swcPrune rate now windows).filter
    (fun kv => kv.1 < floor_dt now rate.period)).map Prod.snd).sum

/-- Sum of pruned sub-window counts in the current major window. -/
def swcCurrentSum (rate : RequestRate) (now : ℚ) (windows : List (ℚ × ℤ)) : ℤ :=
  (((swcPrune rate now windows).filter
    (fun kv => ¬ kv.1 < floor_dt now rate.period)).map Prod.snd).sum

/-- The weighted sum
`floor(prior_sum * (1 - now.second / 60) + current_sum)` computed from
the pruned stored counts, before the current request is recorded. -/
def swcWeighted (rate : RequestRate) (now : ℚ) (windows : List (ℚ × ℤ)) : ℤ :=
  ⌊(swcPriorSum rate now windows : ℚ) * (1 - swcFraction now)
    + (swcCurrentSum rate now windows : ℚ)⌋

/-- The weighted sum as the spec formulates it, with `f` computed from
the configured period (§4.7); used only to exhibit the divergence. -/
def swcWeightedSpec (rate : RequestRate) (now : ℚ) (windows : List (ℚ × ℤ)) : ℤ :=
  ⌊(swcPriorSum rate now windows : ℚ) * (1 - specElapsedFraction rate now)
    + (swcCurrentSum rate now windows : ℚ)⌋

/-- `pruned_windows[frame] += 1` on a `defaultdict` modelled as an
insertion-ordered association list: bump the existing entry, else
append `(frame, 1)`. -/
def swcBump : List (ℚ × ℤ) → ℚ → List (ℚ × ℤ)
  | [], frame => [(frame, 1)]
  | kv :: rest, frame =>
    if kv.1 = frame then (kv.1, kv.2 + 1) :: rest else kv :: swcBump rest frame

/-- `LocalSlidingWindowCounter.consume`: prune, compute the weighted
sum from the surviving counts, record the request in its 1-second
sub-window, and admit iff the weighted sum is below the budget. -/
def LocalSlidingWindowCounter.consume (rate : RequestRate) (now : ℚ)
    (windows? : Option (List (ℚ × ℤ))) :
    (Bool × ℤ × Option ℚ) × List (ℚ × ℤ) :=
  let frame := floor_dt now 1
  match windows? with
  | some windows =>
    let pruned := swcPrune rate now windows
    let weighted_sum := swcWeighted rate now windows
    let newWindows := swcBump pruned frame
    if weighted_sum < rate.requests then
      ((true, rate.requests - weighted_sum, none), newWindows)
    else
      ((false, rate.requests - weighted_sum, none), newWindows)
  | none => ((true, rate.requests - 1, none), [(frame, 1)])

/-- `LocalSlidingWindowCounter.__call__` wrapper body (no reset
header: the store returns `None` for the reset slot). -/
def LocalSlidingWindowCounter.call (key : String) (rate : RequestRate)
    (now : ℚ) (handler : String) (windows? : Option (List (ℚ × ℤ))) :
    Response × List (ℚ × ℤ) :=
  let r := LocalSlidingWindowCounter.consume rate now windows?
  let rate_headers := [("api-ratelimit-limit", rate.per_second),
                       ("api-ratelimit-remaining", (r.1.2.1 : ℚ))]
  if r.1.1 then (⟨handler, 200, rate_headers⟩, r.2)
  else (⟨"Rate Limit for " ++ key ++ " exceeded.", 429, rate_headers⟩, r.2)

/-! ## Claim statements reused by theorem and witness -/

/-- Token-bucket per-identifier invariants (claim C7) at one entry
`(t, l)`: refill preserves `0 ≤ tokens ≤ capacity` and never decreases
`last_refill`, a refill that observes `now < last_refill` leaves the
entry unchanged, a missing entry is initialised to `(capacity, now)`,
and consume preserves the token bounds without touching
`last_refill`. -/
def tbInvariants (rate : RequestRate) (cap cost now t l : ℚ) : Prop :=
  (0 ≤ (LocalTokenBucket.refill rate cap now (some (t, l))).1
    ∧ (LocalTokenBucket.refill rate cap now (some (t, l))).1 ≤ cap
    ∧ l ≤ (LocalTokenBucket.refill rate cap now (some (t, l))).2)
  ∧ (now < l → LocalTokenBucket.refill rate cap now (some (t, l)) = (t, l))
  ∧ LocalTokenBucket.refill rate cap now none = (cap, now)
  ∧ (0 ≤ (LocalTokenBucket.consume cost (t, l)).2.1
    ∧ (LocalTokenBucket.consume cost (t, l)).2.1 ≤ cap
    ∧ (LocalTokenBucket.consume cost (t, l)).2.2 = l)

/-- Token-bucket round trip (claim C8): from a full bucket at `t0`,
`k` back-to-back requests all admit and leave `C − k·c` tokens, and the
refill performed by the next request after `idle` seconds of idleness
observes `min(C, C − k·c + r·idle)` tokens. -/
def tbRoundTrip (rate : RequestRate) (cap cost t0 idle : ℚ) (k : ℕ) : Prop :=
  tbRun rate cap cost t0 k (cap, t0)
      = (List.replicate k true, (cap - k * cost, t0))
    ∧ LocalTokenBucket.refill rate cap (t0 + idle) (some (cap - k * cost, t0))
      = (min cap (cap - k * cost + rate.per_second * idle), t0 + idle)

/-! ## General lemmas about the time model -/

/-- `pytrunc` is the identity on integers. -/
theorem pytrunc_intCast (z : ℤ) : pytrunc (z : ℚ) = z := by
  simp [pytrunc, Rat.num_intCast, Rat.den_intCast]

/-- For a whole-second period, every window start produced by
`floor_dt` is a whole number of seconds. -/
theorem floor_dt_int (d : ℤ) (t : ℚ) :
    floor_dt t (d : ℚ)
      = ((-62135596800 + d * ⌊(t - datetimeMin) / (d : ℚ)⌋ : ℤ) : ℚ) := by
  simp only [floor_dt, pymod, datetimeMin]
  push_cast
  ring

/-! ## Theorems for the claims -/

/-- C2: the claim asserts that constructing a `RequestRate` from
`R ≤ 0` or `D ≤ 0` is rejected; at the concrete input `(0, 0)` the
dataclass constructor succeeds and produces a value, refuting it. -/
theorem C2_counterexample :
    RequestRate.construct 0 0 = some ⟨0, 0⟩ ∧ RequestRate.construct 0 0 ≠ none := by
  constructor
  · rfl
  · simp [RequestRate.construct]

/-- C2 (amended): construction of a `RequestRate` performs no
validation: for every request count and period, including non-positive
ones, it succeeds and produces the value with exactly those fields. -/
theorem C2_construct_never_rejects (requests : ℤ) (period : ℚ) :
    RequestRate.construct requests period = some ⟨requests, period⟩ := rfl

/-- C3: code bug.  The fraction used by
`LocalSlidingWindowCounter.consume` is the hard-coded `now.second / 60`,
not the elapsed fraction `(now − floor(now, D)) / D` of the configured
period.  At `now = 210` (00:03:30 after the epoch, second-of-minute 30)
with `D = 120 s` the code uses `f = 1/2` while the elapsed fraction is
`3/4`; on the stored state with one prior sub-window of count 4 the
code therefore denies (weighted sum 2) where the specified formula
yields weighted sum 1 and admits with budget `R = 2`. -/
theorem C3_fraction_divergence :
    swcFraction 210 = 1 / 2
    ∧ specElapsedFraction ⟨2, 120⟩ 210 = 3 / 4
    ∧ swcFraction 210 ≠ specElapsedFraction ⟨2, 120⟩ 210
    ∧ swcWeighted ⟨2, 120⟩ 210 [(100, 4)] = 2
    ∧ (LocalSlidingWindowCounter.consume ⟨2, 120⟩ 210 (some [(100, 4)])).1.1 = false
    ∧ swcWeightedSpec ⟨2, 120⟩ 210 [(100, 4)] = 1 := by
  norm_num [swcFraction, specElapsedFraction, swcWeighted, swcWeightedSpec,
    swcPriorSum, swcCurrentSum, swcPrune, LocalSlidingWindowCounter.consume,
    dtSecond, floor_dt, pymod, datetimeMin, List.filter]

/-- C4: code bug.  `LocalSlidingLog.consume` appends `now` to the
stored log but binds the pruned list only to a local name, so the store
keeps every timestamp ever appended.  After the call at `t = 100` with
`D = 60` on the record `[0]`, the stored log is `[0, 100]` and still
contains the timestamp `0`, which does not lie in `(t − D, t] = (40, 100]`. -/
theorem C4_stale_timestamp_survives :
    (LocalSlidingLog.consume ⟨6, 60⟩ 100 (some [0])).2 = [0, 100]
    ∧ (0 : ℚ) ∈ (LocalSlidingLog.consume ⟨6, 60⟩ 100 (some [0])).2
    ∧ ¬ ((100 : ℚ) - 60 < 0) := by
  norm_num [LocalSlidingLog.consume]

/-- C9: the sliding-window-counter admission decision never counts the
request being decided: the triple returned by `consume` is determined
by the weighted sum of the pruned counts stored *before* the call
(`swcWeighted`), the request is only recorded afterwards
(`swcBump` applied to the pruned state), and a call for a key with no
record returns `(true, R − 1, none)`. -/
theorem C9_swc_decision_precedes_increment (rate : RequestRate) (now : ℚ) :
    LocalSlidingWindowCounter.consume rate now none
      = ((true, rate.requests - 1, none), [(floor_dt now 1, 1)])
    ∧ ∀ windows : List (ℚ × ℤ),
        (LocalSlidingWindowCounter.consume rate now (some windows)).1
          = (decide (swcWeighted rate now windows < rate.requests),
              rate.requests - swcWeighted rate now windows, none)
        ∧ (LocalSlidingWindowCounter.consume rate now (some windows)).2
          = swcBump (swcPrune rate now windows) (floor_dt now 1) := by
  refine ⟨rfl, fun windows => ?_⟩
  simp only [LocalSlidingWindowCounter.consume]
  by_cases h : swcWeighted rate now windows < rate.requests
  · simp [h]
  · simp [h]

/-- C10: on an existing sliding-log record, a denied call reports
`remaining = R − size` where `size` is the length of the pruned log
(with the current timestamp appended); that value is strictly negative,
and the wrapper attaches exactly it as the `api-ratelimit-remaining`
header of the 429 response. -/
theorem C10_sliding_log_negative_remaining (rate : RequestRate) (now : ℚ)
    (key handler : String) (log : List ℚ)
    (hdeny : (LocalSlidingLog.consume rate now (some log)).1.1 = false) :
    (LocalSlidingLog.consume rate now (some log)).1.2.1
      = rate.requests
        - ((log ++ [now]).filter (fun ts => now - rate.period < ts)).length
    ∧ (LocalSlidingLog.consume rate now (some log)).1.2.1 < 0
    ∧ (LocalSlidingLog.call key rate now handler (some log)).1.status = 429
    ∧ ("api-ratelimit-remaining",
        ((LocalSlidingLog.consume rate now (some log)).1.2.1 : ℚ))
        ∈ (LocalSlidingLog.call key rate now handler (some log)).1.headers := by
  have hc : (((log ++ [now]).filter (fun ts => now - rate.period < ts)).length : ℤ)
      > rate.requests := by
    by_contra hn
    have htrue : (LocalSlidingLog.consume rate now (some log)).1.1 = true := by
      simp only [LocalSlidingLog.consume]
      rw [if_neg hn]
    rw [htrue] at hdeny
    exact Bool.noConfusion hdeny
  have hres : LocalSlidingLog.consume rate now (some log)
      = ((false,
          rate.requests
            - (((log ++ [now]).filter (fun ts => now - rate.period < ts)).length : ℤ),
          ((log ++ [now]).filter (fun ts => now - rate.period < ts)).getLastD 0
            + rate.period),
         log ++ [now]) := by
    simp only [LocalSlidingLog.consume]
    rw [if_pos hc]
  refine ⟨by rw [hres], ?_, ?_, ?_⟩
  · rw [hres]
    dsimp only
    omega
  · simp [LocalSlidingLog.call, hres]
  · simp [LocalSlidingLog.call, hres]

/-- C10 witness: a concrete denied call (`R = 1`, `D = 60 s`, stored
log `[99, 99]`, request at `t = 100`). -/
theorem C10_witness :
    (LocalSlidingLog.consume ⟨1, 60⟩ 100 (some [99, 99])).1.2.1
      = 1 - (([99, 99] ++ [100]).filter (fun ts => (100 : ℚ) - 60 < ts)).length
    ∧ (LocalSlidingLog.consume ⟨1, 60⟩ 100 (some [99, 99])).1.2.1 < 0
    ∧ (LocalSlidingLog.call "k" ⟨1, 60⟩ 100 "h" (some [99, 99])).1.status = 429
    ∧ ("api-ratelimit-remaining",
        ((LocalSlidingLog.consume ⟨1, 60⟩ 100 (some [99, 99])).1.2.1 : ℚ))
        ∈ (LocalSlidingLog.call "k" ⟨1, 60⟩ 100 "h" (some [99, 99])).1.headers :=
  C10_sliding_log_negative_remaining ⟨1, 60⟩ 100 "k" "h" [99, 99]
    (by norm_num [LocalSlidingLog.consume, List.filter])

/-- C7: for every refill rate with non-negative derived per-second
rate, non-negative capacity, and cost `0 ≤ c ≤ capacity`, the token
bucket operations preserve `0 ≤ tokens ≤ capacity` and never decrease
`last_refill`; in particular a refill observing `now < last_refill`
leaves the entry unchanged. -/
theorem C7_token_bucket_invariants (rate : RequestRate) (cap cost now t l : ℚ)
    (hr : 0 ≤ rate.per_second) (hcap : 0 ≤ cap) (hcost : 0 ≤ cost)
    (hcostcap : cost ≤ cap) (ht0 : 0 ≤ t) (htcap : t ≤ cap) :
    tbInvariants rate cap cost now t l := by
  refine ⟨?_, ?_, rfl, ?_⟩
  · simp only [LocalTokenBucket.refill]
    by_cases h : now < l
    · rw [if_pos h]
      exact ⟨ht0, htcap, le_refl l⟩
    · rw [if_neg h]
      refine ⟨le_min hcap ?_, min_le_left _ _, le_of_not_lt h⟩
      have hnl : 0 ≤ now - l := by linarith [le_of_not_lt h]
      nlinarith
  · intro h
    simp only [LocalTokenBucket.refill]
    rw [if_pos h]
  · simp only [LocalTokenBucket.consume]
    by_cases h : t < cost
    · rw [if_pos h]
      exact ⟨ht0, htcap, rfl⟩
    · rw [if_neg h]
      dsimp only
      refine ⟨?_, ?_, rfl⟩
      · linarith [le_of_not_lt h]
      · linarith
/-- C7 witness: the invariants at a concrete rate, capacity, cost and
entry. -/
theorem C7_witness : tbInvariants ⟨6, 60⟩ 6 1 5 3 2 :=
  C7_token_bucket_invariants ⟨6, 60⟩ 6 1 5 3 2
    (by norm_num [RequestRate.per_second]) (by norm_num) (by norm_num)
    (by norm_num) (by norm_num) (by norm_num)

/-- Helper for C8: back-to-back requests at one instant each admit and
deduct exactly the cost while the budget suffices. -/
theorem tbRun_saturated (rate : RequestRate) (cap cost t0 : ℚ) (hcost : 0 ≤ cost) :
    ∀ (k : ℕ) (tok : ℚ), (k : ℚ) * cost ≤ tok → tok ≤ cap →
      tbRun rate cap cost t0 k (tok, t0)
        = (List.replicate k true, (tok - k * cost, t0)) := by
  intro k
  induction k with
  | zero =>
    intro tok _ _
    simp [tbRun]
  | succ k ih =>
    intro tok hbudget hcap
    have hck : cost ≤ tok := by
      have h1 : (1 : ℚ) * cost ≤ ((k : ℚ) + 1) * cost := by
        have : (1 : ℚ) ≤ (k : ℚ) + 1 := by
          have := Nat.cast_nonneg (α := ℚ) k
          linarith
        nlinarith
      push_cast at hbudget
      linarith
    have hstep : tbRequest rate cap cost t0 (some (tok, t0))
        = ((true, tok - cost, t0), (tok - cost, t0)) := by
      simp only [tbRequest, LocalTokenBucket.refill, LocalTokenBucket.consume]
      rw [if_neg (lt_irrefl t0)]
      have hmin : min cap (tok + rate.per_second * (t0 - t0)) = tok := by
        rw [sub_self, mul_zero, add_zero]
        exact min_eq_right hcap
      rw [hmin]
      rw [if_neg (not_lt.mpr hck)]
    have hrest : tbRun rate cap cost t0 k (tok - cost, t0)
        = (List.replicate k true, (tok - cost - k * cost, t0)) := by
      refine ih (tok - cost) ?_ ?_
      · push_cast at hbudget
        linarith
      · linarith
    simp only [tbRun, hstep, hrest, List.replicate_succ, Prod.mk.injEq,
      true_and, and_true]
    push_cast
    ring

/-- C8: Token-bucket round trip.  Starting from a full bucket of
capacity `C` at `t0`, if `k·c ≤ C` then `k` back-to-back requests of
cost `c` are all admitted leaving `C − k·c` tokens, and the lazy refill
performed after `idle ≥ 0` seconds observes exactly
`min(C, C − k·c + r·idle)` tokens (the model computes over `ℚ`, so the
floating-point tolerance of the claim is exact equality here). -/
theorem C8_token_bucket_round_trip (rate : RequestRate) (cap cost t0 idle : ℚ)
    (k : ℕ) (hcost : 0 ≤ cost) (hbudget : (k : ℚ) * cost ≤ cap)
    (hidle : 0 ≤ idle) :
    tbRoundTrip rate cap cost t0 idle k := by
  constructor
  · exact tbRun_saturated rate cap cost t0 hcost k cap hbudget le_rfl
  · simp only [LocalTokenBucket.refill]
    rw [if_neg (by linarith : ¬ t0 + idle < t0)]
    have harg : t0 + idle - t0 = idle := by ring
    rw [harg]

/-- C8 witness: capacity 6, cost 1, rate 6 per 60 s (0.1 token/s),
two admissions then 20 s idle. -/
theorem C8_witness : tbRoundTrip ⟨6, 60⟩ 6 1 0 20 2 :=
  C8_token_bucket_round_trip ⟨6, 60⟩ 6 1 0 20 2 (by norm_num) (by norm_num)
    (by norm_num)

/-- Helper for C1: from an existing entry `(c, w)` in the current
window, the `i`-th further call in that window is admitted exactly when
`c + i + 1 < R`. -/
theorem runFW_steady (rate : RequestRate) (w : ℚ) :
    ∀ ts : List ℚ, (∀ t ∈ ts, floor_dt t rate.period = w) →
      ∀ c : ℤ, runFW rate ts (some ⟨c, w⟩)
        = (List.range ts.length).map
            (fun i : ℕ => decide (c + (i : ℤ) + 1 < rate.requests)) := by
  intro ts
  induction ts with
  | nil => intro _ c; rfl
  | cons t rest ih =>
    intro hw c
    have hfl : floor_dt t rate.period = w := hw t (List.mem_cons_self t rest)
    have hwrest : ∀ t' ∈ rest, floor_dt t' rate.period = w :=
      fun t' ht' => hw t' (List.mem_cons_of_mem _ ht')
    simp only [runFW, LocalFixedWindowCounter.consume, hfl]
    rw [if_neg (lt_irrefl w)]
    rw [List.length_cons, List.range_succ_eq_map, List.map_cons, List.map_map]
    by_cases hc : c + 1 < rate.requests
    · rw [if_pos hc]
      dsimp only
      rw [ih hwrest (c + 1)]
      refine List.cons_eq_cons.mpr ⟨?_, ?_⟩
      · simp only [Nat.cast_zero, add_zero]
        exact (decide_eq_true hc).symm
      · refine List.map_congr_left fun i _ => ?_
        simp only [Function.comp_apply]
        refine decide_eq_decide.mpr ?_
        push_cast
        omega
    · rw [if_neg hc]
      dsimp only
      rw [ih hwrest c]
      refine List.cons_eq_cons.mpr ⟨?_, ?_⟩
      · simp only [Nat.cast_zero, add_zero]
        exact (decide_eq_false hc).symm
      · refine List.map_congr_left fun i _ => ?_
        simp only [Function.comp_apply]
        refine decide_eq_decide.mpr ?_
        push_cast
        omega

/-- C1 counterexample: with `R = 3`, `D = 60 s` and three calls inside
one aligned window starting from no record, the code admits all three
calls; the claim as stated requires the third call (index `2 ≥ R − 1`)
to be rejected, i.e. the run `[true, true, false]`. -/
theorem C1_counterexample :
    runFW ⟨3, 60⟩ [0, 1, 2] none = [true, true, true]
    ∧ runFW ⟨3, 60⟩ [0, 1, 2] none ≠ [true, true, false] := by
  have h : runFW ⟨3, 60⟩ [0, 1, 2] none = [true, true, true] := by
    norm_num [runFW, LocalFixedWindowCounter.consume, floor_dt, pymod,
      datetimeMin]
  refine ⟨h, ?_⟩
  rw [h]
  simp

/-- C1 (amended): within one aligned fixed window of length `D`, with
no clock regression and starting from no record, the fixed window
counter admits exactly `R` requests: the creating (or resetting) call
is admitted without incrementing the counter and the strict `<` check
then admits `R − 1` increments, so call `i` (0-based) is admitted
exactly when `i < R`. -/
theorem C1_fixed_window_admits_R (rate : RequestRate) (ts : List ℚ) (w : ℚ)
    (hR : 1 ≤ rate.requests) (hw : ∀ t ∈ ts, floor_dt t rate.period = w)
    (i : ℕ) (hi : i < ts.length) :
    (runFW rate ts none).getD i false = decide ((i : ℤ) < rate.requests) := by
  cases ts with
  | nil => simp at hi
  | cons t rest =>
    have hfl : floor_dt t rate.period = w := hw t (List.mem_cons_self t rest)
    have hwrest : ∀ t' ∈ rest, floor_dt t' rate.period = w :=
      fun t' ht' => hw t' (List.mem_cons_of_mem _ ht')
    simp only [runFW, LocalFixedWindowCounter.consume, hfl]
    rw [runFW_steady rate w rest hwrest 0]
    cases i with
    | zero =>
      simp only [List.getD_cons_zero, Nat.cast_zero]
      exact (decide_eq_true (by omega)).symm
    | succ j =>
      have hj : j < rest.length := by
        simpa using hi
      simp only [List.getD_cons_succ]
      rw [List.getD_eq_getElem?_getD, List.getElem?_map, List.getElem?_range hj]
      dsimp only [Option.map, Option.getD]
      refine decide_eq_decide.mpr ?_
      push_cast
      omega

/-- C1 witness: `R = 2`, `D = 60 s`, three calls in the window starting
at the epoch; the call at index 2 is rejected (`decide (2 < 2) =
false`). -/
theorem C1_witness :
    (runFW ⟨2, 60⟩ [0, 1, 2] none).getD 2 false = decide ((2 : ℕ) < (2 : ℤ)) :=
  C1_fixed_window_admits_R ⟨2, 60⟩ [0, 1, 2] 0 (by norm_num)
    (by
      intro t ht
      fin_cases ht <;> norm_num [floor_dt, pymod, datetimeMin])
    2 (by norm_num)

/-- C6 counterexample: the claim fails for fractional-second periods.
With `D = 1.5 s` both stores themselves write the window start `1.5`
on a first call; from those corresponding states (count 0, window
`1.5`, field `"0##1.5"`) a call at `t = 2` with `R = 5` diverges: the
remote parse `int(float("1.5")) = 1` truncates the window below
`latest = 1.5`, takes the reset branch and returns `(true, 5, 3)`
writing count 0, while the local store increments and returns
`(true, 4, 3)` writing count 1 — different triples and
non-corresponding resulting states. -/
theorem C6_counterexample :
    (RedisFixedWindowCounter.consume ⟨5, 3 / 2⟩ 2 (some (0, 3 / 2))).1
        = (true, 5, 3)
    ∧ (LocalFixedWindowCounter.consume ⟨5, 3 / 2⟩ 2 (some ⟨0, 3 / 2⟩)).1
        = (true, 4, 3)
    ∧ ¬ ((RedisFixedWindowCounter.consume ⟨5, 3 / 2⟩ 2 (some (0, 3 / 2))).1
        = (LocalFixedWindowCounter.consume ⟨5, 3 / 2⟩ 2 (some ⟨0, 3 / 2⟩)).1)
    ∧ ¬ ((RedisFixedWindowCounter.consume ⟨5, 3 / 2⟩ 2 (some (0, 3 / 2))).2.1
        = (LocalFixedWindowCounter.consume ⟨5, 3 / 2⟩ 2
            (some ⟨0, 3 / 2⟩)).2.count) := by
  have hp : pytrunc (3 / 2) = 1 := by
    norm_num [pytrunc]
    decide
  have hred : RedisFixedWindowCounter.consume ⟨5, 3 / 2⟩ 2 (some (0, 3 / 2))
      = ((true, 5, 3), (0, 3 / 2)) := by
    norm_num [RedisFixedWindowCounter.consume, hp, floor_dt, pymod, datetimeMin]
  have hloc : LocalFixedWindowCounter.consume ⟨5, 3 / 2⟩ 2 (some ⟨0, 3 / 2⟩)
      = ((true, 4, 3), ⟨1, 3 / 2⟩) := by
    norm_num [LocalFixedWindowCounter.consume, floor_dt, pymod, datetimeMin]
  rw [hred, hloc]
  norm_num

/-- C6 (amended): in the single-client case (no concurrent writer, no
clock regression) and for a whole-second period — so that every window
start is a whole epoch second and survives the remote parser's
truncation to the second — `RedisFixedWindowCounter.consume`
implements the same decision rules as
`LocalFixedWindowCounter.consume`: from corresponding states — the
remote field holding the encoded `(count, window_start)` pair of the
local entry — a call at the same time with the same rate returns the
same `(allow, remaining, reset)` triple and leaves corresponding
states.  (For fractional-second window starts the truncating parse
diverges from the local store, as the counterexample shows.) -/
theorem C6_redis_matches_local (rate : RequestRate) (d : ℤ) (now : ℚ)
    (hd : rate.period = (d : ℚ))
    (localE : Option FWEntry) (remoteF : Option (ℤ × ℚ))
    (hcorr : fwCorrespondsOpt localE remoteF)
    (hreg : ∀ en, localE = some en → en.window ≤ floor_dt now rate.period) :
    (RedisFixedWindowCounter.consume rate now remoteF).1
      = (LocalFixedWindowCounter.consume rate now localE).1
    ∧ fwCorresponds (LocalFixedWindowCounter.consume rate now localE).2
        (RedisFixedWindowCounter.consume rate now remoteF).2 := by
  have hlatest : ∃ z : ℤ, floor_dt now rate.period = (z : ℚ) := by
    refine ⟨-62135596800 + d * ⌊(now - datetimeMin) / (d : ℚ)⌋, ?_⟩
    rw [hd, floor_dt_int]
  match localE, remoteF with
  | none, none =>
    exact ⟨rfl, rfl, rfl, hlatest⟩
  | none, some f =>
    exact absurd hcorr (by simp [fwCorrespondsOpt])
  | some en, none =>
    exact absurd hcorr (by simp [fwCorrespondsOpt])
  | some en, some field =>
    obtain ⟨ec, ew⟩ := en
    obtain ⟨fc, fts⟩ := field
    obtain ⟨h1, h2, z, hz⟩ := hcorr
    dsimp only at h1 h2 hz
    have hrg : ew ≤ floor_dt now rate.period := hreg ⟨ec, ew⟩ rfl
    have hactive : ((pytrunc fts : ℤ) : ℚ) = ew := by
      rw [h2, hz, pytrunc_intCast]
    simp only [RedisFixedWindowCounter.consume,
      LocalFixedWindowCounter.consume, hactive, h1]
    by_cases hw : ew < floor_dt now rate.period
    · rw [if_pos hw, if_pos hw]
      exact ⟨rfl, rfl, rfl, hlatest⟩
    · rw [if_neg hw, if_neg hw]
      have heq : ew = floor_dt now rate.period :=
        le_antisymm hrg (le_of_not_lt hw)
      by_cases hcnt : ec + 1 < rate.requests
      · rw [if_pos hcnt, if_pos hcnt]
        exact ⟨rfl, rfl, heq.symm, z, hz⟩
      · rw [if_neg hcnt, if_neg hcnt]
        exact ⟨rfl, rfl, h2, z, hz⟩

/-- C6 witness: `R = 2`, `D = 60 s`, corresponding states with count 0
in the window starting at the epoch, call at `t = 30`. -/
theorem C6_witness :
    (RedisFixedWindowCounter.consume ⟨2, 60⟩ 30 (some (0, 0))).1
      = (LocalFixedWindowCounter.consume ⟨2, 60⟩ 30 (some ⟨0, 0⟩)).1
    ∧ fwCorresponds (LocalFixedWindowCounter.consume ⟨2, 60⟩ 30 (some ⟨0, 0⟩)).2
        (RedisFixedWindowCounter.consume ⟨2, 60⟩ 30 (some (0, 0))).2 :=
  C6_redis_matches_local ⟨2, 60⟩ 60 30 (by norm_num)
    (some ⟨0, 0⟩) (some (0, 0))
    (by exact ⟨rfl, rfl, 0, by norm_num⟩)
    (by
      intro en hen
      cases Option.some.injEq .. ▸ hen
      norm_num [floor_dt, pymod, datetimeMin])

/-- C5: for every limiter wrapper, whenever the store decision is
`allow = false` the wrapper returns status 429 with body
`"Rate Limit for <key> exceeded."` carrying the rate-limit headers, and
the response (and written-back state) is independent of the wrapped
handler — the handler is not invoked. -/
theorem C5_wrappers_reject_with_429 (key handler : String)
    (rate : RequestRate) (cap cost now : ℚ) :
    (∀ e : Option (ℚ × ℚ),
      (LocalTokenBucket.consume cost (LocalTokenBucket.refill rate cap now e)).1.1
          = false →
      (LocalTokenBucket.call key rate cap cost now handler e).1
          = ⟨"Rate Limit for " ++ key ++ " exceeded.", 429,
             [("api-ratelimit-limit", rate.per_second),
              ("api-ratelimit-remaining",
                (LocalTokenBucket.consume cost
                  (LocalTokenBucket.refill rate cap now e)).1.2.1 / cost)]⟩
        ∧ ∀ h2 : String,
            LocalTokenBucket.call key rate cap cost now handler e
              = LocalTokenBucket.call key rate cap cost now h2 e)
    ∧ (∀ e : Option (ℚ × ℚ),
      (LocalLeakyBucket.pour cap cost (LocalLeakyBucket.leak rate now e)).1.1
          = false →
      (LocalLeakyBucket.call key rate cap cost now handler e).1
          = ⟨"Rate Limit for " ++ key ++ " exceeded.", 429,
             [("api-ratelimit-limit", rate.per_second),
              ("api-ratelimit-remaining",
                (cap - (LocalLeakyBucket.pour cap cost
                  (LocalLeakyBucket.leak rate now e)).1.2.1) / cost)]⟩
        ∧ ∀ h2 : String,
            LocalLeakyBucket.call key rate cap cost now handler e
              = LocalLeakyBucket.call key rate cap cost now h2 e)
    ∧ (∀ lg : Option (List ℚ),
      (LocalSlidingLog.consume rate now lg).1.1 = false →
      (LocalSlidingLog.call key rate now handler lg).1
          = ⟨"Rate Limit for " ++ key ++ " exceeded.", 429,
             [("api-ratelimit-limit", rate.per_second),
              ("api-ratelimit-remaining",
                ((LocalSlidingLog.consume rate now lg).1.2.1 : ℚ)),
              ("api-ratelimit-reset", (LocalSlidingLog.consume rate now lg).1.2.2)]⟩
        ∧ ∀ h2 : String,
            LocalSlidingLog.call key rate now handler lg
              = LocalSlidingLog.call key rate now h2 lg)
    ∧ (∀ e : Option FWEntry,
      (LocalFixedWindowCounter.consume rate now e).1.1 = false →
      (LocalFixedWindowCounter.call key rate now handler e).1
          = ⟨"Rate Limit for " ++ key ++ " exceeded.", 429,
             [("api-ratelimit-limit", rate.per_second),
              ("api-ratelimit-remaining",
                ((LocalFixedWindowCounter.consume rate now e).1.2.1 : ℚ)),
              ("api-ratelimit-reset",
                (LocalFixedWindowCounter.consume rate now e).1.2.2)]⟩
        ∧ ∀ h2 : String,
            LocalFixedWindowCounter.call key rate now handler e
              = LocalFixedWindowCounter.call key rate now h2 e)
    ∧ (∀ f : Option (ℤ × ℚ),
      (RedisFixedWindowCounter.consume rate now f).1.1 = false →
      (RedisFixedWindowCounter.call key rate now handler f).1
          = ⟨"Rate Limit for " ++ key ++ " exceeded.", 429,
             [("api-ratelimit-limit", rate.per_second),
              ("api-ratelimit-remaining",
                ((RedisFixedWindowCounter.consume rate now f).1.2.1 : ℚ)),
              ("api-ratelimit-reset",
                (RedisFixedWindowCounter.consume rate now f).1.2.2)]⟩
        ∧ ∀ h2 : String,
            RedisFixedWindowCounter.call key rate now handler f
              = RedisFixedWindowCounter.call key rate now h2 f)
    ∧ (∀ w : Option (List (ℚ × ℤ)),
      (LocalSlidingWindowCounter.consume rate now w).1.1 = false →
      (LocalSlidingWindowCounter.call key rate now handler w).1
          = ⟨"Rate Limit for " ++ key ++ " exceeded.", 429,
             [("api-ratelimit-limit", rate.per_second),
              ("api-ratelimit-remaining",
                ((LocalSlidingWindowCounter.consume rate now w).1.2.1 : ℚ))]⟩
        ∧ ∀ h2 : String,
            LocalSlidingWindowCounter.call key rate now handler w
              = LocalSlidingWindowCounter.call key rate now h2 w) := by
  refine ⟨fun e hf => ⟨?_, fun h2 => ?_⟩, fun e hf => ⟨?_, fun h2 => ?_⟩,
    fun lg hf => ⟨?_, fun h2 => ?_⟩, fun e hf => ⟨?_, fun h2 => ?_⟩,
    fun f hf => ⟨?_, fun h2 => ?_⟩, fun w hf => ⟨?_, fun h2 => ?_⟩⟩
  · simp [LocalTokenBucket.call, hf]
  · simp [LocalTokenBucket.call, hf]
  · simp [LocalLeakyBucket.call, hf]
  · simp [LocalLeakyBucket.call, hf]
  · simp [LocalSlidingLog.call, hf]
  · simp [LocalSlidingLog.call, hf]
  · simp [LocalFixedWindowCounter.call, hf]
  · simp [LocalFixedWindowCounter.call, hf]
  · simp [RedisFixedWindowCounter.call, hf]
  · simp [RedisFixedWindowCounter.call, hf]
  · simp [LocalSlidingWindowCounter.call, hf]
  · simp [LocalSlidingWindowCounter.call, hf]

/-- C5 witness: concrete denied requests for each of the six wrappers
(`R = 1` per 60 s, capacity 6, cost 1, at `t = 0`), each yielding a 429
response. -/
theorem C5_witness :
    (LocalTokenBucket.call "k" ⟨1, 60⟩ 6 1 0 "h" (some (0, 0))).1.status = 429
    ∧ (LocalLeakyBucket.call "k" ⟨1, 60⟩ 6 1 0 "h" (some (6, 0))).1.status = 429
    ∧ (LocalSlidingLog.call "k" ⟨1, 60⟩ 0 "h" (some [0, 0])).1.status = 429
    ∧ (LocalFixedWindowCounter.call "k" ⟨1, 60⟩ 0 "h" (some ⟨0, 0⟩)).1.status = 429
    ∧ (RedisFixedWindowCounter.call "k" ⟨1, 60⟩ 0 "h" (some (0, 0))).1.status = 429
    ∧ (LocalSlidingWindowCounter.call "k" ⟨1, 60⟩ 0 "h" (some [(0, 5)])).1.status
        = 429 := by
  have H := C5_wrappers_reject_with_429 "k" "h" ⟨1, 60⟩ 6 1 0
  refine ⟨?_, ?_, ?_, ?_, ?_, ?_⟩
  · exact congrArg Response.status
      (H.1 (some (0, 0)) (by
        norm_num [LocalTokenBucket.consume, LocalTokenBucket.refill,
          RequestRate.per_second])).1
  · exact congrArg Response.status
      (H.2.1 (some (6, 0)) (by
        norm_num [LocalLeakyBucket.pour, LocalLeakyBucket.leak,
          RequestRate.per_second])).1
  · exact congrArg Response.status
      (H.2.2.1 (some [0, 0]) (by
        norm_num [LocalSlidingLog.consume, List.filter])).1
  · exact congrArg Response.status
      (H.2.2.2.1 (some ⟨0, 0⟩) (by
        norm_num [LocalFixedWindowCounter.consume, floor_dt, pymod,
          datetimeMin])).1
  · exact congrArg Response.status
      (H.2.2.2.2.1 (some (0, 0)) (by
        norm_num [RedisFixedWindowCounter.consume, pytrunc, floor_dt, pymod,
          datetimeMin])).1
  · exact congrArg Response.status
      (H.2.2.2.2.2 (some [(0, 5)]) (by
        norm_num [LocalSlidingWindowCounter.consume, swcWeighted, swcPrune,
          swcPriorSum, swcCurrentSum, swcFraction, dtSecond, floor_dt, pymod,
          datetimeMin, List.filter])).1
